import Mathlib

/-!
Shallow embedding of the real-time WebSocket STT load client
(src/websocket_client/run.py).  Machine integers are modelled as Nat/Int,
Python floats as exact rationals, and the Python exceptions that the
claims depend on as explicit error values.
-/

/-- Errors raised by the embedded code paths: a ValueError from run_load on
an empty audio list, the SystemExit from main when neither audio argument is
given, and the AttributeError raised inside extract_text when the "data"
field of a message is a truthy non-mapping. -/
inductive PyError where
  | valueErrorEmptyAudios : PyError
  | systemExitMissingArgs : PyError
  | attributeError : PyError
deriving DecidableEq, Repr

/-- Embeds the frozen dataclass ClientConfig of run.py. -/
structure ClientConfig where
  host_ws : String
  language : String := "portuguese"
  chunk_duration_ms : Int := 20
  pace_factor : Rat := 1
  silence_after_sec : Rat := 2
  idle_timeout : Rat := 10
  ping_interval : Rat := 30
  ping_timeout : Rat := 60
  close_timeout : Rat := 5
  fallback_bytes_per_sec : Int := 32000
  concat_finals_only : Bool := true
deriving DecidableEq, Repr

/-- Embeds one row of the per-session pandas DataFrame with columns
is_partial / latency_s / result (run.py line 269).  The row is appended by
receive_responses: the partial flag (None stored as none), the rounded model
time (None stored as none), and the extracted text. -/
structure ResultMessage where
  isPartial : Option Bool
  time : Option Rat
  text : String
deriving DecidableEq, Repr

/-- Embeds the dataclass SessionResult of run.py. -/
structure SessionResult where
  user_id : String
  avg_model_time_s : Rat
  session_time_s : Rat
  output_txt_path : Option String
  rows : Nat
deriving DecidableEq, Repr

/-- The five statistics printed by the aggregate stats block of run.py
(media, mediana, min, max, P95). -/
structure StatsSummary where
  mean : Rat
  median : Rat
  minVal : Rat
  maxVal : Rat
  p95 : Rat
deriving DecidableEq, Repr

/-- Embeds the argparse namespace produced by parse_args in run.py.
Optional string arguments default to None, numeric arguments keep their
CLI defaults. -/
structure Args where
  host_ws : String
  language : String := "portuguese"
  audio : Option String := none
  audios : Option String := none
  users : Int := 1
  chunk_ms : Int := 20
  pace : Rat := 1
  silence_after : Rat := 2
  idle_timeout : Rat := 10
  fallback_bps : Int := 32000
  concat_finais_only : Bool := false
  concat_tudo : Bool := false
deriving DecidableEq, Repr

/-- Decoded JSON values, the possible results of json.loads in
safe_json_loads.  Objects keep their key/value pairs in document order so
that the Python dict semantics (last duplicate key wins) can be modelled. -/
inductive Json where
  | null : Json
  | bool : Bool → Json
  | num : Rat → Json
  | str : String → Json
  | arr : List Json → Json
  | obj : List (String × Json) → Json

/-- The two run modes dispatched by main in run.py: single session from
--audio, or a load run from --audios. -/
inductive RunMode where
  | single : ClientConfig → String → String → RunMode
  | load : ClientConfig → List String → Nat → RunMode

/-! ## Pacer (run.py lines 80-85, function _wait_remaining) -/

/-- Clamp applied to the byte rate in _wait_remaining: max(1, bytes_per_sec). -/
def clampByteRate (bytesPerSec : Int) : Int := max 1 bytesPerSec

/-- The literal 1e-9 of _wait_remaining, as an exact rational. -/
def paceEps : Rat := 1 / 1000000000

/-- Clamp applied to the pace factor in _wait_remaining: max(1e-9, pace_factor). -/
def clampPace (paceFactor : Rat) : Rat := max paceEps paceFactor

/-- ideal_delay of _wait_remaining:
(bytes_sent / max(1, bytes_per_sec)) / max(1e-9, pace_factor). -/
def idealDelay (bytesSent : Nat) (bytesPerSec : Int) (paceFactor : Rat) : Rat :=
  ((bytesSent : Rat) / (clampByteRate bytesPerSec : Rat)) / clampPace paceFactor

/-- The sleep duration applied by _wait_remaining: remaining = ideal_delay -
elapsed is slept exactly when it is positive, otherwise no sleep happens
(modelled as a zero sleep). -/
def waitRemaining (bytesSent : Nat) (bytesPerSec : Int) (paceFactor : Rat)
    (elapsed : Rat) : Rat :=
  if 0 < idealDelay bytesSent bytesPerSec paceFactor - elapsed
  then idealDelay bytesSent bytesPerSec paceFactor - elapsed
  else 0

/-! ## Frame Source chunk sizing (run.py lines 150-151 and 185) -/

/-- frames_per_chunk = int(sample_rate * chunk_duration_ms / 1000); for
nonnegative integer inputs Python's truncation agrees with Nat division. -/
def framesPerChunk (sampleRate chunkDurationMs : Nat) : Nat :=
  sampleRate * chunkDurationMs / 1000

/-- chunk_size = max(1, frames_per_chunk * channels * sample_width) of the
WAV branch of send_chunks_real_time. -/
def wavChunkSize (sampleRate channels sampleWidth chunkDurationMs : Nat) : Nat :=
  max 1 (framesPerChunk sampleRate chunkDurationMs * channels * sampleWidth)

/-- chunk_size = max(1, int(bytes_per_sec * chunk_duration_ms / 1000)) of the
non-WAV fallback branch of send_chunks_real_time. -/
def fallbackChunkSize (bytesPerSec chunkDurationMs : Nat) : Nat :=
  max 1 (bytesPerSec * chunkDurationMs / 1000)

/-- Byte count requested from the WAV file per read: read_method converts the
byte count n to frames = max(1, n // (channels * sample_width)) and reads that
many frames, i.e. frames * frameBytes bytes while data remains. -/
def readChunkBytes (chunkSize frameBytes : Nat) : Nat :=
  max 1 (chunkSize / frameBytes) * frameBytes

/-! ## Send loop: splitting a byte stream into chunks

Both send loops of send_chunks_real_time repeatedly take the next at-most
step bytes until the data is exhausted.  The loop is embedded with fuel
equal to the length of the data, which bounds its iteration count whenever
step is at least 1 (in run.py every chunk size is clamped to at least 1). -/

/-- One structural chunking pass: each iteration emits the next min(step,
remaining) bytes.  Fuel bounds the number of iterations. -/
def chunksOfAux (step : Nat) : Nat → List Nat → List (List Nat)
  | 0, _ => []
  | _ + 1, [] => []
  | fuel + 1, x :: xs => (x :: xs).take step :: chunksOfAux step fuel ((x :: xs).drop step)

/-- The list of chunks the send loop emits from data, at chunk size step. -/
def chunksOf (step : Nat) (data : List Nat) : List (List Nat) :=
  chunksOfAux step data.length data

/-- silence_bytes_total = int(bytes_per_sec * max(0.0, silence_after_sec));
the product is nonnegative so Python's int() truncation is the floor. -/
def silenceTotalBytes (bytesPerSec : Nat) (silenceAfterSec : Rat) : Nat :=
  (Int.floor ((bytesPerSec : Rat) * max 0 silenceAfterSec)).toNat

/-- The silence tail: zero bytes, sent in chunks of size chunk_size with the
last chunk truncated to the remainder (silence_chunk[:send_len] in run.py). -/
def silenceTail (chunkSize total : Nat) : List (List Nat) :=
  chunksOf chunkSize (List.replicate total 0)

/-- The full WAV-branch outbound stream of send_chunks_real_time: the real
audio bytes chunked by read_method, followed by the silence tail; the list
end is the EOF of the send path. -/
def sendStreamWav (audioData : List Nat) (chunkSize frameBytes byteRate : Nat)
    (silenceAfterSec : Rat) : List (List Nat) :=
  chunksOf (readChunkBytes chunkSize frameBytes) audioData ++
    silenceTail chunkSize (silenceTotalBytes byteRate silenceAfterSec)

/-- The full non-WAV outbound stream of send_chunks_real_time: raw bytes read
in chunk_size pieces, followed by the silence tail. -/
def sendStreamRaw (audioData : List Nat) (byteRate chunkDurationMs : Nat)
    (silenceAfterSec : Rat) : List (List Nat) :=
  chunksOf (fallbackChunkSize byteRate chunkDurationMs) audioData ++
    silenceTail (fallbackChunkSize byteRate chunkDurationMs)
      (silenceTotalBytes byteRate silenceAfterSec)

/-! ## Receive path (run.py lines 88-113 and 225-254) -/

/-- Python dict lookup d.get(k) on a JSON object decoded by json.loads: with
duplicate keys the last occurrence wins, absent keys give None. -/
def objGet (kvs : List (String × Json)) (k : String) : Option Json :=
  (kvs.reverse.find? (fun p => p.1 == k)).map (fun p => p.2)

/-- Python truthiness of a decoded JSON value: None, False, 0, empty string,
empty list and empty dict are falsy. -/
def jsonFalsy : Json → Bool
  | Json.null => true
  | Json.bool b => !b
  | Json.num q => q == 0
  | Json.str s => s.isEmpty
  | Json.arr xs => xs.isEmpty
  | Json.obj kvs => kvs.isEmpty

/-- extract_is_partial: msg.get("is_partial") if it is a bool, else None. -/
def extractIsPartial (kvs : List (String × Json)) : Option Bool :=
  match objGet kvs "is_partial" with
  | some (Json.bool b) => some b
  | _ => none

/-- extract_model_time: float(v) when isinstance(v, (int, float)).  Python
bools pass that isinstance check (bool is a subclass of int), so a JSON true
is extracted as 1.0 and false as 0.0. -/
def extractModelTime (kvs : List (String × Json)) : Option Rat :=
  match objGet kvs "time" with
  | some (Json.num q) => some q
  | some (Json.bool b) => some (if b then 1 else 0)
  | _ => none

/-- extract_text: data = msg.get("data") or \x7b\x7d; then data.get("text").
A falsy data value is replaced by the empty dict, but a truthy non-mapping
data value reaches data.get and raises AttributeError. -/
def extractText (kvs : List (String × Json)) : Except PyError String :=
  let dataV := (objGet kvs "data").getD Json.null
  let dataV := if jsonFalsy dataV then Json.obj [] else dataV
  match dataV with
  | Json.obj dkvs =>
    Except.ok (match objGet dkvs "text" with
      | some (Json.str s) => s
      | _ => "")
  | _ => Except.error PyError.attributeError

/-- Python round(x, 4): round half to even at four decimal places. -/
def roundHalfEven (x : Rat) : Int :=
  let f := Int.floor x
  let r := x - f
  if r < 1 / 2 then f
  else if 1 / 2 < r then f + 1
  else if f % 2 = 0 then f else f + 1

/-- The value stored in the latency_s column: round(model_time, 4). -/
def round4 (x : Rat) : Rat := (roundHalfEven (x * 10000) : Rat) / 10000

/-- One iteration of the receive_responses loop body on a decoded inbound
message.  raw = none models a payload json.loads could not decode (the
loop continues, the log is untouched); a decoded non-dict value is likewise
skipped; a dict is reduced to a ResultMessage row appended to the log,
unless extract_text raises, which aborts the receive task. -/
def processMessage (log : List ResultMessage) (raw : Option Json) :
    Except PyError (List ResultMessage) :=
  match raw with
  | none => Except.ok log
  | some (Json.obj kvs) =>
    match extractText kvs with
    | Except.error e => Except.error e
    | Except.ok text =>
      Except.ok (log ++ [{ isPartial := extractIsPartial kvs,
                           time := (extractModelTime kvs).map round4,
                           text := text }])
  | some _ => Except.ok log

/-! ## Session reduction (run.py lines 307-318) -/

/-- latencies = the latency_s column values that are numbers (the non-None
entries, since every stored value is either a float or None). -/
def sessionLatencies (log : List ResultMessage) : List Rat :=
  log.filterMap (fun m => m.time)

/-- mean of statistics.mean: sum divided by length. -/
def meanQ (values : List Rat) : Rat := values.sum / (values.length : Rat)

/-- avg_model_time = float(statistics.mean(latencies)) if latencies else 0.0. -/
def avgModelTime (log : List ResultMessage) : Rat :=
  if sessionLatencies log = [] then 0 else meanQ (sessionLatencies log)

/-- finals = df[df["is_partial"] == False]: the rows whose stored flag equals
False exactly; True and None rows both fail the comparison. -/
def finalsOf (log : List ResultMessage) : List ResultMessage :=
  log.filter (fun m => m.isPartial == some false)

/-- chosen = finals if not finals.empty else df, under concat_finals_only;
otherwise the full log. -/
def chosenLog (concatFinalsOnly : Bool) (log : List ResultMessage) :
    List ResultMessage :=
  if concatFinalsOnly then
    if (finalsOf log).isEmpty then log else finalsOf log
  else log

/-- " ".join(t for t in rows if isinstance(t, str) and t.strip()).strip():
texts whose trim is nonempty, joined by single spaces, then trimmed. -/
def joinKeptTexts (log : List ResultMessage) : String :=
  (String.intercalate " "
    ((log.map (fun m => m.text)).filter (fun t => !t.trim.isEmpty))).trim

/-- final_text of run_single_session, from the chosen rows. -/
def finalText (concatFinalsOnly : Bool) (log : List ResultMessage) : String :=
  joinKeptTexts (chosenLog concatFinalsOnly log)

/-! ## Stats Reducer (run.py lines 347-363, function _print_stats) -/

/-- Insert into an ascending list, keeping earlier equal elements first. -/
def insertSorted (x : Rat) : List Rat → List Rat
  | [] => [x]
  | y :: ys => if x ≤ y then x :: y :: ys else y :: insertSorted x ys

/-- Ascending sort, modelling Python's sorted(). -/
def sortAsc (values : List Rat) : List Rat := values.foldr insertSorted []

/-- statistics.median: middle element of the sorted data for odd length, the
average of the two middle elements for even length. -/
def medianQ (values : List Rat) : Rat :=
  let s := sortAsc values
  let n := values.length
  if n % 2 = 1 then s.getD (n / 2) 0
  else (s.getD (n / 2 - 1) 0 + s.getD (n / 2) 0) / 2

/-- Python min over a nonempty list. -/
def listMin : List Rat → Rat
  | [] => 0
  | x :: xs => xs.foldl min x

/-- Python max over a nonempty list. -/
def listMax : List Rat → Rat
  | [] => 0
  | x :: xs => xs.foldl max x

/-- statistics.quantiles(data, n) with the default exclusive method: cut
point i (1-based) interpolates between the sorted data around position
i*(len+1)/n, with the index clamped into [1, len-1]. -/
def quantilesExcl (values : List Rat) (n : Nat) : List Rat :=
  let s := sortAsc values
  let ld := values.length
  let m := ld + 1
  (List.range (n - 1)).map (fun k =>
    let i := k + 1
    let j := min (max (i * m / n) 1) (ld - 1)
    let delta := i * m % n
    (s.getD (j - 1) 0 * ((n : Rat) - (delta : Rat)) + s.getD j 0 * (delta : Rat)) / (n : Rat))

/-- Embeds _print_stats: none models the "sem valores" report on an empty
series; otherwise the five printed statistics, with p95 from
statistics.quantiles(values, n=100)[94] when there are at least two values
and the single value itself otherwise. -/
def printStats (values : List Rat) : Option StatsSummary :=
  if values.isEmpty then none
  else some
    { mean := meanQ values
      median := medianQ values
      minVal := listMin values
      maxVal := listMax values
      p95 := if 2 ≤ values.length then (quantilesExcl values 100).getD 94 0
             else values.headD 0 }

/-! ## Load Coordinator (run.py lines 366-389, function run_load) -/

/-- user_id = "user_" + str(i + 1) for 0-based launch index i. -/
def userId (i : Nat) : String := "user_" ++ toString (i + 1)

/-- The (audio, user_id) assignments run_load makes before gathering: asset
round-robin over the list, deterministic user identifiers; an empty asset
list raises ValueError before any session is created. -/
def runLoadPlan (audioPaths : List String) (users : Nat) :
    Except PyError (List (String × String)) :=
  if audioPaths.isEmpty then Except.error PyError.valueErrorEmptyAudios
  else Except.ok ((List.range users).map
    (fun i => (audioPaths.getD (i % audioPaths.length) "", userId i)))

/-- results = await asyncio.gather(*tasks): gather returns one result per
task in the order the tasks were passed (launch order), independent of
completion order; each session reduces to a SessionResult via outcome. -/
def runLoadResults (outcome : String → String → SessionResult)
    (audioPaths : List String) (users : Nat) :
    Except PyError (List SessionResult) :=
  (runLoadPlan audioPaths users).map
    (fun plan => plan.map (fun p => outcome p.1 p.2))

/-! ## CLI dispatch (run.py lines 396-447) -/

/-- Python truthiness of an optional string argument: None and "" are falsy. -/
def truthy : Option String → Bool
  | none => false
  | some s => !s.isEmpty

/-- The concat_finals_only resolution in main: start at True, --concat-tudo
clears it, --concat-finais-only sets it back. -/
def resolveConcatFinalsOnly (a : Args) : Bool :=
  if a.concat_finais_only then true
  else if a.concat_tudo then false
  else true

/-- The ClientConfig main builds from the parsed arguments; no argument is
validated (in particular the pace factor is passed through unchanged). -/
def buildConfig (a : Args) : ClientConfig :=
  { host_ws := a.host_ws
    language := a.language
    chunk_duration_ms := a.chunk_ms
    pace_factor := a.pace
    silence_after_sec := a.silence_after
    idle_timeout := a.idle_timeout
    fallback_bytes_per_sec := a.fallback_bps
    concat_finals_only := resolveConcatFinalsOnly a }

/-- audio_paths = [x.strip() for x in args.audios.split(",") if x.strip()]. -/
def splitAudios (s : String) : List String :=
  ((s.splitOn ",").map (fun x => x.trim)).filter (fun x => !x.isEmpty)

/-- The dispatch at the end of main: --audio selects a single session as
user_1, otherwise --audios selects a load run with max(1, users) users,
otherwise SystemExit.  No pace-factor check occurs anywhere on this path. -/
def mainDispatch (a : Args) : Except PyError RunMode :=
  if truthy a.audio then
    Except.ok (RunMode.single (buildConfig a) (a.audio.getD "") "user_1")
  else if truthy a.audios then
    Except.ok (RunMode.load (buildConfig a) (splitAudios (a.audios.getD ""))
      (max 1 a.users).toNat)
  else Except.error PyError.systemExitMissingArgs

/-- A concrete argument vector: a single-session run (--audio given) with
--pace 0 and every other argument at its CLI default. -/
def argsPaceZero : Args :=
  { host_ws := "ws://host:8000", audio := some "a.wav", pace := 0 }

/-! ## Helper lemmas about the pacer -/

theorem clampByteRate_pos (B : Int) : 0 < clampByteRate B :=
  lt_of_lt_of_le zero_lt_one (le_max_left _ _)

theorem paceEps_pos : 0 < paceEps := by norm_num [paceEps]

theorem clampPace_pos (p : Rat) : 0 < clampPace p :=
  lt_of_lt_of_le paceEps_pos (le_max_left _ _)

theorem idealDelay_nonneg (L : Nat) (B : Int) (p : Rat) : 0 ≤ idealDelay L B p := by
  have h1 : (0 : Rat) < (clampByteRate B : Rat) := by
    exact_mod_cast clampByteRate_pos B
  exact div_nonneg (div_nonneg (Nat.cast_nonneg L) h1.le) (clampPace_pos p).le

theorem waitRemaining_nonneg (L : Nat) (B : Int) (p e : Rat) :
    0 ≤ waitRemaining L B p e := by
  unfold waitRemaining
  split
  · next h => exact h.le
  · exact le_refl 0

/-- C10: the pacer's wait computation is total for every input: any byte rate
(0 or negative included) is clamped to at least 1, any pace factor (0 or
negative included) is clamped to at least 1e-9, both divisors are nonzero,
and the computed sleep is never negative. -/
theorem waitRemainingTotal (L : Nat) (B : Int) (p e : Rat) :
    0 ≤ waitRemaining L B p e ∧
    1 ≤ clampByteRate B ∧
    paceEps ≤ clampPace p ∧
    (clampByteRate B : Rat) ≠ 0 ∧
    clampPace p ≠ 0 := by
  refine ⟨waitRemaining_nonneg L B p e, le_max_left _ _, le_max_left _ _, ?_, ?_⟩
  · have := clampByteRate_pos B
    intro h
    rw [Int.cast_eq_zero (α := Rat)] at h
    omega
  · exact (clampPace_pos p).ne'

/-- C3 (amended): for byte rate B at least 1, pace factor p positive and
nonnegative elapsed time, the pacer's wait never exceeds L/(B*p) and is never
negative; whenever p is at least the clamp threshold 1e-9 the pacer suspends
for exactly the positive remainder L/(B*p) - elapsed and does not suspend at
all when that remainder is zero or negative.  Below 1e-9 the code clamps the
pace factor, so the wait can be shorter than the ideal remainder. -/
theorem pacerWaitAmended (L : Nat) (B : Int) (p e : Rat)
    (hB : 1 ≤ B) (hp : 0 < p) (he : 0 ≤ e) :
    waitRemaining L B p e ≤ (L : Rat) / ((B : Rat) * p) ∧
    0 ≤ waitRemaining L B p e ∧
    (paceEps ≤ p →
      (0 < (L : Rat) / ((B : Rat) * p) - e →
        waitRemaining L B p e = (L : Rat) / ((B : Rat) * p) - e) ∧
      ((L : Rat) / ((B : Rat) * p) - e ≤ 0 → waitRemaining L B p e = 0)) := by
  have hBQ : (1 : Rat) ≤ (B : Rat) := by exact_mod_cast hB
  have hB0 : (0 : Rat) < (B : Rat) := lt_of_lt_of_le zero_lt_one hBQ
  have hcb : clampByteRate B = B := max_eq_right hB
  have hideal : idealDelay L B p = ((L : Rat) / (B : Rat)) / clampPace p := by
    rw [idealDelay, hcb]
  have hbound : idealDelay L B p ≤ (L : Rat) / ((B : Rat) * p) := by
    rw [hideal, ← div_div]
    gcongr
    · exact le_max_right _ _
  have hnn := waitRemaining_nonneg L B p e
  refine ⟨?_, hnn, ?_⟩
  · unfold waitRemaining
    split
    · next h =>
      calc idealDelay L B p - e ≤ idealDelay L B p := sub_le_self _ he
        _ ≤ (L : Rat) / ((B : Rat) * p) := hbound
    · exact div_nonneg (Nat.cast_nonneg L) (mul_nonneg hB0.le hp.le)
  · intro hpe
    have hcp : clampPace p = p := max_eq_right hpe
    have hid : idealDelay L B p = (L : Rat) / ((B : Rat) * p) := by
      rw [hideal, hcp, div_div]
    constructor
    · intro hpos
      unfold waitRemaining
      rw [hid]
      simp only [if_pos hpos]
    · intro hle
      unfold waitRemaining
      rw [hid]
      simp only [if_neg (not_lt.mpr hle)]

/-- C3 witness: at L = 2 bytes, B = 1 byte/s, p = 2, elapsed 0, the wait is
exactly 1 second and obeys the bound. -/
theorem pacerWaitWitness :
    waitRemaining 2 1 2 0 ≤ (2 : Rat) / ((1 : Rat) * 2) ∧
    0 ≤ waitRemaining 2 1 2 0 ∧
    waitRemaining 2 1 2 0 = (2 : Rat) / ((1 : Rat) * 2) - 0 := by
  have h := pacerWaitAmended 2 1 2 0 (by norm_num) (by norm_num) (le_refl 0)
  refine ⟨h.1, h.2.1, ?_⟩
  exact (h.2.2 (by norm_num [paceEps])).1 (by norm_num)

/-- C3 counterexample: at pace factor 1e-10 (positive, below the clamp), byte
rate 1, one byte and elapsed 0, the ideal scaled remainder is 1e10 and is
positive, yet the pacer sleeps only 1e9 seconds: it does not suspend for
exactly the remainder as the claim states for every p > 0. -/
theorem pacerWaitCex :
    (0 : Rat) < 1 / 10000000000 ∧
    0 < (1 : Rat) / ((1 : Rat) * (1 / 10000000000)) - 0 ∧
    waitRemaining 1 1 (1 / 10000000000) 0 = 1000000000 ∧
    waitRemaining 1 1 (1 / 10000000000) 0 ≠
      (1 : Rat) / ((1 : Rat) * (1 / 10000000000)) - 0 := by
  have hv : waitRemaining 1 1 (1 / 10000000000) 0 = 1000000000 := by
    have hcp : clampPace (1 / 10000000000) = paceEps := by
      rw [clampPace, max_eq_left (by norm_num [paceEps])]
    rw [waitRemaining, idealDelay, hcp]
    norm_num [clampByteRate, paceEps]
  refine ⟨by norm_num, by norm_num, hv, ?_⟩
  rw [hv]
  norm_num

/-! ## Frame Source chunk size (claim C1) -/

/-- C1 counterexample: a PCM stream with sample rate 100, 2 channels, width 2
and chunk duration 1 ms gives floor(r*d/1000) = 0, so the code clamps the
chunk size to a single byte: it equals neither floor(r*d/1000)*c*w = 0 nor
any whole frame (c*w = 4 bytes). -/
theorem frameSourceChunkSizeCex :
    wavChunkSize 100 2 2 1 = 1 ∧
    framesPerChunk 100 1 * 2 * 2 = 0 ∧
    wavChunkSize 100 2 2 1 ≠ framesPerChunk 100 1 * 2 * 2 ∧
    ¬ (2 * 2 ≤ wavChunkSize 100 2 2 1) := by decide

/-- C1 (amended): the chunk byte size is max(1, floor(r*d/1000) * c * w); it
is never zero, and whenever at least one frame fits a chunk (1000 <= r*d)
and the frame is nonempty (c, w at least 1) it equals floor(r*d/1000)*c*w
and is at least one whole sample-frame of c*w bytes. -/
theorem frameSourceChunkSizeAmended (r c w d : Nat) :
    wavChunkSize r c w d = max 1 (framesPerChunk r d * c * w) ∧
    0 < wavChunkSize r c w d ∧
    (1000 ≤ r * d → 1 ≤ c → 1 ≤ w →
      wavChunkSize r c w d = framesPerChunk r d * c * w ∧
      c * w ≤ wavChunkSize r c w d) := by
  refine ⟨rfl, lt_of_lt_of_le zero_lt_one (le_max_left _ _), ?_⟩
  intro hrd hc hw
  have hfp : 1 ≤ framesPerChunk r d := by
    rw [framesPerChunk]
    exact (Nat.one_le_div_iff (by norm_num)).mpr hrd
  have hprod : 1 ≤ framesPerChunk r d * c * w :=
    le_trans (by omega) (Nat.mul_le_mul (Nat.mul_le_mul hfp hc) hw)
  have hmax : wavChunkSize r c w d = framesPerChunk r d * c * w :=
    max_eq_right hprod
  refine ⟨hmax, ?_⟩
  rw [hmax, mul_assoc]
  exact Nat.le_mul_of_pos_left (c * w) hfp

/-! ## Helper lemmas about the send-loop chunking -/

theorem chunksOfAux_nil (step fuel : Nat) : chunksOfAux step fuel [] = [] := by
  cases fuel <;> rfl

theorem chunksOfAux_sum (step : Nat) (hs : 0 < step) :
    ∀ (fuel : Nat) (data : List Nat), data.length ≤ fuel →
      ((chunksOfAux step fuel data).map List.length).sum = data.length := by
  intro fuel
  induction fuel with
  | zero =>
    intro data h
    have hd : data = [] := List.eq_nil_of_length_eq_zero (Nat.le_zero.mp h)
    subst hd
    rfl
  | succ n ih =>
    intro data h
    cases data with
    | nil => rfl
    | cons x xs =>
      simp only [chunksOfAux, List.map_cons, List.sum_cons]
      rw [ih ((x :: xs).drop step)
        (by simp only [List.length_drop, List.length_cons]
            simp only [List.length_cons] at h
            omega)]
      rw [List.length_take, List.length_drop]
      simp only [List.length_cons]
      omega

theorem chunksOfAux_mem_mem (step : Nat) :
    ∀ (fuel : Nat) (data : List Nat) (ch : List Nat),
      ch ∈ chunksOfAux step fuel data → ∀ b ∈ ch, b ∈ data := by
  intro fuel
  induction fuel with
  | zero =>
    intro data ch h
    simp [chunksOfAux] at h
  | succ n ih =>
    intro data ch h b hb
    cases data with
    | nil => simp [chunksOfAux] at h
    | cons x xs =>
      simp only [chunksOfAux, List.mem_cons] at h
      rcases h with h | h
      · subst h
        exact List.take_subset _ _ hb
      · exact List.drop_subset _ _ (ih _ _ h b hb)

theorem chunksOfAux_len_bounds (step : Nat) (hs : 0 < step) :
    ∀ (fuel : Nat) (data : List Nat) (ch : List Nat),
      ch ∈ chunksOfAux step fuel data → 0 < ch.length ∧ ch.length ≤ step := by
  intro fuel
  induction fuel with
  | zero =>
    intro data ch h
    simp [chunksOfAux] at h
  | succ n ih =>
    intro data ch h
    cases data with
    | nil => simp [chunksOfAux] at h
    | cons x xs =>
      simp only [chunksOfAux, List.mem_cons] at h
      rcases h with h | h
      · subst h
        rw [List.length_take]
        simp only [List.length_cons]
        omega
      · exact ih _ _ h

theorem chunksOfAux_dropLast_len (step : Nat) (hs : 0 < step) :
    ∀ (fuel : Nat) (data : List Nat), data.length ≤ fuel →
      ∀ ch ∈ (chunksOfAux step fuel data).dropLast, ch.length = step := by
  intro fuel
  induction fuel with
  | zero =>
    intro data h ch hch
    have hd : data = [] := List.eq_nil_of_length_eq_zero (Nat.le_zero.mp h)
    subst hd
    simp [chunksOfAux] at hch
  | succ n ih =>
    intro data h ch hch
    cases data with
    | nil => simp [chunksOfAux] at hch
    | cons x xs =>
      simp only [chunksOfAux] at hch
      cases hr : chunksOfAux step n ((x :: xs).drop step) with
      | nil =>
        rw [hr] at hch
        simp at hch
      | cons r rs =>
        rw [hr] at hch
        rw [List.dropLast_cons₂] at hch
        rcases List.mem_cons.mp hch with h1 | h2
        · have hne : (x :: xs).drop step ≠ [] := by
            intro h0
            rw [h0, chunksOfAux_nil] at hr
            exact List.cons_ne_nil r rs hr.symm
          have hlt : step < (x :: xs).length := List.length_lt_of_drop_ne_nil hne
          subst h1
          rw [List.length_take]
          omega
        · have hlen : ((x :: xs).drop step).length ≤ n := by
            rw [List.length_drop]
            simp only [List.length_cons] at h ⊢
            omega
          have := ih ((x :: xs).drop step) hlen ch (by rw [hr]; exact h2)
          exact this

/-- All chunks of the silence tail are zero-filled. -/
theorem silenceTail_zeroes (cs total : Nat) :
    ∀ ch ∈ silenceTail cs total, ∀ b ∈ ch, b = 0 := by
  intro ch hch b hb
  have := chunksOfAux_mem_mem cs (List.replicate total (0 : Nat)).length
    (List.replicate total 0) ch hch b hb
  exact List.eq_of_mem_replicate this

/-- The chunk byte lengths of the silence tail sum to the requested total. -/
theorem silenceTail_sum (cs total : Nat) (hcs : 0 < cs) :
    ((silenceTail cs total).map List.length).sum = total := by
  have := chunksOfAux_sum cs hcs (List.replicate total (0 : Nat)).length
    (List.replicate total 0) le_rfl
  simpa [silenceTail, chunksOf] using this

/-- Every chunk of the silence tail is nonempty and at most chunk_size long. -/
theorem silenceTail_bounds (cs total : Nat) (hcs : 0 < cs) :
    ∀ ch ∈ silenceTail cs total, 0 < ch.length ∧ ch.length ≤ cs := by
  intro ch hch
  exact chunksOfAux_len_bounds cs hcs _ _ ch hch

/-- Every chunk of the silence tail except the last has exactly chunk_size
bytes. -/
theorem silenceTail_dropLast (cs total : Nat) (hcs : 0 < cs) :
    ∀ ch ∈ (silenceTail cs total).dropLast, ch.length = cs := by
  intro ch hch
  exact chunksOfAux_dropLast_len cs hcs _ _ le_rfl ch hch

/-- When at least one frame fits in a chunk, read_method's frame-aligned read
size equals the chunk size itself. -/
theorem readChunkBytes_eq_chunkSize (r c w d : Nat)
    (hrd : 1000 ≤ r * d) (hc : 1 ≤ c) (hw : 1 ≤ w) :
    readChunkBytes (wavChunkSize r c w d) (c * w) = wavChunkSize r c w d := by
  have hfp : 1 ≤ framesPerChunk r d := by
    rw [framesPerChunk]
    exact (Nat.one_le_div_iff (by norm_num)).mpr hrd
  have hcw : 0 < c * w := Nat.mul_pos hc hw
  have hcs : wavChunkSize r c w d = framesPerChunk r d * (c * w) := by
    rw [wavChunkSize, ← mul_assoc]
    exact max_eq_right (le_trans (by omega)
      (Nat.mul_le_mul (Nat.mul_le_mul hfp hc) hw))
  rw [readChunkBytes, hcs, Nat.mul_div_cancel _ hcw, max_eq_right hfp]

/-- C8 (amended): after the audio chunks are exhausted the WAV send path
emits zero-filled silence chunks totaling floor(byte_rate * max(0,
silence_after_sec)) bytes (the exact product byte_rate * silence_after_sec
whenever that is a whole number of bytes), each chunk of the same chunk size
as the audio chunks except the last, which is truncated to the remainder;
the stream ends (EOF) only after both the audio chunks and the silence tail. -/
theorem silenceTailAmended (audioData : List Nat) (r c w d : Nat) (s : Rat)
    (hrd : 1000 ≤ r * d) (hc : 1 ≤ c) (hw : 1 ≤ w) :
    sendStreamWav audioData (wavChunkSize r c w d) (c * w) (r * c * w) s =
      chunksOf (wavChunkSize r c w d) audioData ++
        silenceTail (wavChunkSize r c w d) (silenceTotalBytes (r * c * w) s) ∧
    ((silenceTail (wavChunkSize r c w d) (silenceTotalBytes (r * c * w) s)).map
        List.length).sum = silenceTotalBytes (r * c * w) s ∧
    ((silenceTotalBytes (r * c * w) s : Int) =
      Int.floor (((r * c * w : Nat) : Rat) * max 0 s)) ∧
    (∀ ch ∈ silenceTail (wavChunkSize r c w d) (silenceTotalBytes (r * c * w) s),
      ∀ b ∈ ch, b = 0) ∧
    (∀ ch ∈ (silenceTail (wavChunkSize r c w d)
        (silenceTotalBytes (r * c * w) s)).dropLast,
      ch.length = wavChunkSize r c w d) ∧
    (∀ ch ∈ silenceTail (wavChunkSize r c w d) (silenceTotalBytes (r * c * w) s),
      0 < ch.length ∧ ch.length ≤ wavChunkSize r c w d) := by
  have hcs : 0 < wavChunkSize r c w d :=
    lt_of_lt_of_le zero_lt_one (le_max_left _ _)
  refine ⟨?_, silenceTail_sum _ _ hcs, ?_, silenceTail_zeroes _ _,
    silenceTail_dropLast _ _ hcs, silenceTail_bounds _ _ hcs⟩
  · rw [sendStreamWav, readChunkBytes_eq_chunkSize r c w d hrd hc hw]
  · rw [silenceTotalBytes, Int.toNat_of_nonneg]
    exact Int.floor_nonneg.mpr (mul_nonneg (by positivity) (le_max_left 0 s))

/-- C8 witness: sample rate 1000, mono, 1-byte width, 1 ms chunks and a 3 ms
silence tail: the tail is three 1-byte zero chunks totaling exactly
floor(1000 * 3/1000) = 3 bytes. -/
theorem silenceTailWitness :
    ((silenceTail (wavChunkSize 1000 1 1 1) (silenceTotalBytes (1000 * 1 * 1)
        (3 / 1000))).map List.length).sum =
      silenceTotalBytes (1000 * 1 * 1) (3 / 1000) ∧
    silenceTotalBytes (1000 * 1 * 1) (3 / 1000) = 3 ∧
    sendStreamWav [] (wavChunkSize 1000 1 1 1) (1 * 1) (1000 * 1 * 1) (3 / 1000) =
      chunksOf (wavChunkSize 1000 1 1 1) [] ++
        silenceTail (wavChunkSize 1000 1 1 1) (silenceTotalBytes (1000 * 1 * 1)
          (3 / 1000)) := by
  have h := silenceTailAmended [] 1000 1 1 1 (3 / 1000)
    (by norm_num) (le_refl 1) (le_refl 1)
  have htot : silenceTotalBytes (1000 * 1 * 1) (3 / 1000) = 3 := by
    simp only [silenceTotalBytes]
    rw [max_eq_right (by norm_num : (0 : Rat) ≤ 3 / 1000)]
    norm_num
    decide
  exact ⟨h.2.1, htot, h.1⟩

/-- C8 counterexample: with byte rate 3 bytes/s (an attainable
fallback_bytes_per_sec) and a 0.5 s silence tail, the silence chunk lengths
sum to int(3 * 0.5) = 1 byte, not to byte_rate * silence_after_sec = 1.5
bytes as the claim states. -/
theorem silenceTailCex :
    silenceTotalBytes 3 (1 / 2) = 1 ∧
    fallbackChunkSize 3 20 = 1 ∧
    (((silenceTail (fallbackChunkSize 3 20) (silenceTotalBytes 3 (1 / 2))).map
        List.length).sum : Rat) = 1 ∧
    (3 : Rat) * (1 / 2) = 3 / 2 ∧
    (((silenceTail (fallbackChunkSize 3 20) (silenceTotalBytes 3 (1 / 2))).map
        List.length).sum : Rat) ≠ (3 : Rat) * (1 / 2) := by
  have htot : silenceTotalBytes 3 (1 / 2) = 1 := by
    simp only [silenceTotalBytes]
    rw [max_eq_right (by norm_num : (0 : Rat) ≤ 1 / 2)]
    norm_num
  have hsum : (((silenceTail (fallbackChunkSize 3 20)
      (silenceTotalBytes 3 (1 / 2))).map List.length).sum : Rat) = 1 := by
    rw [htot]
    decide
  refine ⟨htot, by decide, hsum, by norm_num, ?_⟩
  rw [hsum]
  norm_num

/-! ## Final-transcript filter (claim C2) -/

/-- C2: under concat_finals_only the transcript rows are exactly the log
entries whose partial flag equals false (entries with flag None are excluded
from the finals set); when that set is empty the full unfiltered log is
used instead, and the final text is assembled from the chosen rows. -/
theorem finalsFilterSpec (log : List ResultMessage) :
    (∀ m, m ∈ finalsOf log ↔ m ∈ log ∧ m.isPartial = some false) ∧
    (∀ m ∈ log, m.isPartial = none → m ∉ finalsOf log) ∧
    (finalsOf log ≠ [] → chosenLog true log = finalsOf log ∧
      finalText true log = joinKeptTexts (finalsOf log)) ∧
    (finalsOf log = [] → chosenLog true log = log ∧
      finalText true log = joinKeptTexts log) := by
  refine ⟨?_, ?_, ?_, ?_⟩
  · intro m
    simp [finalsOf, List.mem_filter]
  · intro m _ hnone hmem
    simp [finalsOf, List.mem_filter, hnone] at hmem
  · intro h
    cases hL : finalsOf log with
    | nil => exact absurd hL h
    | cons a as =>
      constructor
      · simp [chosenLog, hL]
      · simp [finalText, chosenLog, hL]
  · intro h
    constructor
    · simp [chosenLog, h]
    · simp [finalText, chosenLog, h]

/-- C2 witness: with one partial, one None-flagged and one final row, the
chosen rows are exactly the final row; with only a partial row the filter is
empty and the full log is used. -/
theorem finalsFilterWitness :
    chosenLog true [⟨some true, none, "p"⟩, ⟨none, none, "n"⟩,
        ⟨some false, none, "f"⟩] = [⟨some false, none, "f"⟩] ∧
    chosenLog true [⟨some true, none, "p"⟩] = [⟨some true, none, "p"⟩] := by
  have h1 := finalsFilterSpec [⟨some true, none, "p"⟩, ⟨none, none, "n"⟩,
    ⟨some false, none, "f"⟩]
  have h2 := finalsFilterSpec [⟨some true, none, "p"⟩]
  constructor
  · have hc := (h1.2.2.1 (by decide)).1
    rw [hc]
    decide
  · exact (h2.2.2.2 (by decide)).1

/-! ## Stats Reducer (claim C6) -/

/-- C6: the Stats Reducer reports no values on an empty series without
computing any statistic, and on a one-element series every reported
statistic (mean, median, min, max, p95) equals that element. -/
theorem statsReducerEmptySingleton :
    printStats [] = none ∧
    ∀ x : Rat, printStats [x] =
      some { mean := x, median := x, minVal := x, maxVal := x, p95 := x } := by
  refine ⟨rfl, ?_⟩
  intro x
  simp [printStats, meanQ, medianQ, sortAsc, insertSorted, listMin, listMax]

/-! ## Average model time (claim C7) -/

/-- C7: a session's average model time is the arithmetic mean of the
non-null recorded time values of its log, and 0 when there are none. -/
theorem avgModelTimeSpec (log : List ResultMessage) :
    (sessionLatencies log ≠ [] →
      avgModelTime log =
        (sessionLatencies log).sum / ((sessionLatencies log).length : Rat)) ∧
    (sessionLatencies log = [] → avgModelTime log = 0) := by
  constructor
  · intro h
    rw [avgModelTime, if_neg h, meanQ]
  · intro h
    rw [avgModelTime, if_pos h]

/-- C7 witness: recorded times 2 and 4 (one row without a time) average to
3; a log with no recorded time averages to 0. -/
theorem avgModelTimeWitness :
    avgModelTime [⟨some true, some 2, "a"⟩, ⟨none, none, ""⟩,
      ⟨some false, some 4, "b"⟩] = 3 ∧
    avgModelTime [⟨some true, none, "x"⟩] = 0 := by
  have h1 := avgModelTimeSpec [⟨some true, some 2, "a"⟩, ⟨none, none, ""⟩,
    ⟨some false, some 4, "b"⟩]
  have h2 := avgModelTimeSpec [⟨some true, none, "x"⟩]
  constructor
  · rw [h1.1 (by decide)]
    simp [sessionLatencies]
    norm_num
  · exact h2.2 (by decide)

/-! ## Receive path robustness (claim C9) -/

/-- C9 at the failing input: an inbound JSON message whose data field is a
truthy non-mapping, such as the decoded object of the payload with data = 5,
makes extract_text raise AttributeError, aborting the receive task instead
of appending a ResultMessage with empty text.  Undecodable payloads and
decoded non-mappings are, as claimed, discarded silently with the log
unchanged, and a well-formed message is appended even when useful: the last
conjuncts document the surrounding behaviour. -/
theorem receiveCrashOnNonMappingData :
    processMessage [] (some (Json.obj [("data", Json.num 5)])) =
      Except.error PyError.attributeError ∧
    processMessage [] none = Except.ok [] ∧
    processMessage [] (some (Json.str "not a mapping")) = Except.ok [] ∧
    processMessage [] (some (Json.arr [Json.num 1])) = Except.ok [] ∧
    processMessage []
        (some (Json.obj [("data", Json.obj [("text", Json.str "hi")]),
          ("is_partial", Json.bool false), ("time", Json.num 1)])) =
      Except.ok [{ isPartial := some false, time := some (round4 1), text := "hi" }] ∧
    round4 1 = 1 := by
  refine ⟨rfl, rfl, rfl, rfl, rfl, ?_⟩
  rw [round4, roundHalfEven]
  norm_num

/-! ## Pace factor configuration (claim C4) -/

/-- C4 counterexample: with pace = 0 on the command line, main raises no
configuration error: dispatch succeeds and a session is started as user_1
with pace_factor 0, and the pacer is invoked with that zero value (which it
clamps to 1e-9 rather than rejecting). -/
theorem paceZeroCex :
    mainDispatch argsPaceZero =
      Except.ok (RunMode.single (buildConfig argsPaceZero) "a.wav" "user_1") ∧
    (buildConfig argsPaceZero).pace_factor = 0 ∧
    clampPace (buildConfig argsPaceZero).pace_factor = paceEps := by
  refine ⟨rfl, rfl, ?_⟩
  show clampPace 0 = paceEps
  rw [clampPace, max_eq_left paceEps_pos.le]

/-- C4 (amended): a pace factor of zero is never rejected: for every argument
vector with a truthy --audio, dispatch succeeds with the pace factor passed
through unvalidated; when the pacer is then invoked with pace factor 0 it
clamps it to 1e-9, computing the same nonnegative wait as at 1e-9. -/
theorem paceZeroAmended (a : Args) (h : truthy a.audio = true) :
    mainDispatch a =
      Except.ok (RunMode.single (buildConfig a) (a.audio.getD "") "user_1") ∧
    (buildConfig a).pace_factor = a.pace ∧
    (∀ (L : Nat) (B : Int) (e : Rat),
      waitRemaining L B 0 e = waitRemaining L B paceEps e ∧
      0 ≤ waitRemaining L B 0 e) := by
  refine ⟨?_, rfl, ?_⟩
  · rw [mainDispatch, if_pos h]
  · intro L B e
    have hclamp : clampPace 0 = clampPace paceEps := by
      rw [clampPace, clampPace, max_eq_left paceEps_pos.le, max_self]
    constructor
    · rw [waitRemaining, waitRemaining, idealDelay, idealDelay, hclamp]
    · exact waitRemaining_nonneg L B 0 e

/-- C4 witness: the amended theorem applied at the concrete pace-zero
argument vector. -/
theorem paceZeroWitness :
    mainDispatch argsPaceZero =
      Except.ok (RunMode.single (buildConfig argsPaceZero)
        (argsPaceZero.audio.getD "") "user_1") ∧
    (buildConfig argsPaceZero).pace_factor = argsPaceZero.pace ∧
    0 ≤ waitRemaining 160 32000 0 0 := by
  have h := paceZeroAmended argsPaceZero rfl
  exact ⟨h.1, h.2.1, (h.2.2 160 32000 0).2⟩

/-! ## Load Coordinator (claim C5) -/

/-- C5: for a nonempty asset list the coordinator plans exactly N sessions,
session i taking asset A[i mod len(A)] and user identifier user_(i+1), and
the gathered results keep launch order; an empty asset list fails with
ValueError before any session is launched. -/
theorem loadCoordinatorSpec (A : List String) (N : Nat)
    (outcome : String → String → SessionResult) :
    (A ≠ [] →
      runLoadPlan A N =
        Except.ok ((List.range N).map
          (fun i => (A.getD (i % A.length) "", userId i))) ∧
      runLoadResults outcome A N =
        Except.ok ((List.range N).map
          (fun i => outcome (A.getD (i % A.length) "") (userId i))) ∧
      ((List.range N).map (fun i => (A.getD (i % A.length) "", userId i))).length
        = N ∧
      (∀ i, userId i = "user_" ++ toString (i + 1))) ∧
    (A = [] →
      runLoadPlan A N = Except.error PyError.valueErrorEmptyAudios ∧
      runLoadResults outcome A N = Except.error PyError.valueErrorEmptyAudios) := by
  constructor
  · intro h
    have hA : A.isEmpty = false := by
      cases A with
      | nil => exact absurd rfl h
      | cons x xs => rfl
    have hplan : runLoadPlan A N =
        Except.ok ((List.range N).map
          (fun i => (A.getD (i % A.length) "", userId i))) := by
      rw [runLoadPlan, hA]
      rfl
    refine ⟨hplan, ?_, by simp, fun i => rfl⟩
    rw [runLoadResults, hplan]
    simp [Except.map]
  · intro h
    subst h
    exact ⟨rfl, rfl⟩

/-- C5 witness: two assets and three users give the round-robin plan
user_1 on a, user_2 on b, user_3 on a, in launch order; the empty list is
rejected. -/
theorem loadCoordinatorWitness :
    runLoadPlan ["a", "b"] 3 =
      Except.ok [("a", "user_1"), ("b", "user_2"), ("a", "user_3")] ∧
    runLoadPlan ([] : List String) 3 =
      Except.error PyError.valueErrorEmptyAudios := by
  have h1 := (loadCoordinatorSpec ["a", "b"] 3
    (fun _ u => (⟨u, 0, 0, none, 0⟩ : SessionResult))).1 (by decide)
  have h2 := (loadCoordinatorSpec ([] : List String) 3
    (fun _ u => (⟨u, 0, 0, none, 0⟩ : SessionResult))).2 rfl
  refine ⟨?_, h2.1⟩
  rw [h1.1]
  rfl

/-- C1 witness: 8000 Hz mono 16-bit audio at 20 ms chunks gives 160 frames
per chunk and a chunk size of 320 bytes, at least one whole frame. -/
theorem frameSourceChunkSizeWitness :
    wavChunkSize 8000 1 2 20 = framesPerChunk 8000 20 * 1 * 2 ∧
    1 * 2 ≤ wavChunkSize 8000 1 2 20 ∧
    wavChunkSize 8000 1 2 20 = 320 := by
  have h := (frameSourceChunkSizeAmended 8000 1 2 20).2.2 (by norm_num)
    (le_refl 1) (by norm_num)
  exact ⟨h.1, h.2, by decide⟩
